import Mathlib

/-!
Shallow embedding of the JarvisChat streaming chat relay (src/app.py).

The embedding covers the code the claims are about:
  * `build_system_prompt` (app.py lines 343-357): the prompt composer;
  * the `/api/chat` handler `chat` (app.py lines 359-414): validation,
    conversation creation/touch, user-turn insert + commit, history read,
    message-list assembly, Ollama payload construction;
  * the `stream_response` generator (app.py lines 416-451): the relay that
    consumes the backend's newline-delimited stream, emits client events,
    and persists the assistant turn on the completion flag.

Modelling conventions:
  * The sqlite store is modelled as an external record store (per spec §1):
    tables become lists kept in insertion order (`ORDER BY id ASC` on the
    autoincrement key is exactly insertion order), INSERT is list append,
    UPDATE maps over rows.
  * A backend stream line is modelled after what `json.loads` plus the two
    shape checks can see: a whitespace-only line (skipped before parsing),
    a line that fails to parse (JSONDecodeError, silently dropped), a line
    that parses to a JSON value that is not an object (the subsequent
    `"message" in chunk` / `chunk.get("done")` raises TypeError or
    AttributeError, which escapes the inner `except json.JSONDecodeError`
    and is caught by the outer `except Exception`, turning into an error
    event that ends the relay), and a line that parses to an object,
    carrying an optional string content fragment and a truthy-or-absent
    `done` flag.
  * Timestamps are opaque strings passed in as parameters (`now` for the
    handler, `ts` for the assistant insert, which the code takes fresh).
  * The client abort and an early backend close are both the stream simply
    ending: the relay is a pure function of the list of lines it got to
    process, so a run on a truncated line list IS the aborted run.
-/

/-- One stored chat message row (table `messages`), minus the surrogate id:
row order in the list is insertion order, which is `ORDER BY id ASC`. -/
structure StoredMsg where
  conversation_id : String
  role : String
  content : String
  created_at : String
deriving DecidableEq, Repr

/-- One conversation row (table `conversations`). -/
structure Conversation where
  id : String
  title : String
  model : String
  created_at : String
  updated_at : String
deriving DecidableEq, Repr

/-- The durable store: conversations, messages (insertion-ordered), the
singleton profile row (`none` = row absent) and the settings key-value
table. -/
structure Store where
  conversations : List Conversation
  messages : List StoredMsg
  profile : Option String
  settings : List (String × String)
deriving DecidableEq, Repr

/-- A role/content pair as sent to the inference backend. -/
structure Msg where
  role : String
  content : String
deriving DecidableEq, Repr

/-- The body of the streaming POST to Ollama (app.py lines 407-414). -/
structure OllamaPayload where
  model : String
  messages : List Msg
  stream : Bool
  stop : List String
deriving DecidableEq, Repr

/-- The JSON body of a chat submission; `none` models an absent field,
mirroring `body.get(...)` with its defaults. -/
structure ChatBody where
  conversation_id : Option String
  message : Option String
  model : Option String
  system_prompt : Option String
deriving DecidableEq, Repr

def DEFAULT_MODEL : String := "deepseek-coder:6.7b"

/-- Python's `str.strip()` with no argument: remove leading and trailing
whitespace.  Defined by structural recursion over the character list so it
evaluates inside the kernel. -/
def pyStrip (s : String) : String :=
  String.mk (((s.data.dropWhile Char.isWhitespace).reverse.dropWhile
    Char.isWhitespace).reverse)

/-- `settings.get(key, dflt)` over the dict built from the settings rows
(the `key` column is a primary key, so an assoc-list lookup is exact). -/
def settings_get (settings : List (String × String)) (key dflt : String) : String :=
  match settings.find? (fun kv => kv.1 = key) with
  | some kv => kv.2
  | none => dflt

/-- `build_system_prompt` (app.py lines 343-357): profile segment included
iff the `profile_enabled` setting is the string "true" (defaulting to
"true") and the profile row exists with non-blank content; preset segment
included iff `extra_prompt` is truthy and non-blank after strip; segments
joined by a fixed separator; empty string when no segment. -/
def build_system_prompt (profile : Option String) (settings : List (String × String))
    (extra_prompt : String) : String :=
  let parts1 : List String :=
    if settings_get settings "profile_enabled" "true" = "true" then
      match profile with
      | some content => if pyStrip content ≠ "" then [pyStrip content] else []
      | none => []
    else []
  let parts : List String :=
    parts1 ++ (if extra_prompt ≠ "" ∧ pyStrip extra_prompt ≠ "" then [pyStrip extra_prompt] else [])
  if parts.isEmpty then "" else String.intercalate "\n\n---\n\n" parts

/-- The synchronous part of the `/api/chat` handler (app.py lines 359-414),
up to and including the commit and the payload construction, before the
streaming response is started.  `freshId` stands for `str(uuid.uuid4())`
and `now` for `datetime.now(timezone.utc).isoformat()`.  Returns
`Except.error 400` for a blank message (HTTPException before any store
access), otherwise the store after the commit, the resolved conversation
id and the Ollama payload. -/
def chat (body : ChatBody) (st : Store) (freshId now : String) :
    Except Nat (Store × String × OllamaPayload) :=
  let user_message := pyStrip (body.message.getD "")
  let model := body.model.getD DEFAULT_MODEL
  let preset_prompt := body.system_prompt.getD ""
  if user_message = "" then
    Except.error 400
  else
    let cid0 := body.conversation_id.getD ""
    let convAndStore : String × Store :=
      if cid0 = "" then
        let title := user_message.take 80 ++ (if user_message.length > 80 then "..." else "")
        (freshId,
          { st with conversations :=
              st.conversations ++ [⟨freshId, title, model, now, now⟩] })
      else
        (cid0,
          { st with conversations :=
              (st.conversations.map
                (fun c => if c.id = cid0 then { c with updated_at := now } else c)) })
    let conv_id := convAndStore.1
    let st1 := convAndStore.2
    let st2 := { st1 with messages := st1.messages ++ [⟨conv_id, "user", user_message, now⟩] }
    let history := st2.messages.filter (fun m => m.conversation_id = conv_id)
    let system_prompt := build_system_prompt st2.profile st2.settings preset_prompt
    let msgs : List Msg :=
      (if system_prompt = "" then [] else [⟨"system", system_prompt⟩])
        ++ history.map (fun m => Msg.mk m.role m.content)
    Except.ok (st2, conv_id,
      ⟨model, msgs, true, ["User", "User:", "Assistant:", "\nUser"]⟩)

/-- One line of the backend's newline-delimited stream, as the relay's
parsing sees it (app.py lines 426-445). -/
inductive Line where
  /-- a line that is blank after strip: skipped before parsing. -/
  | blank : Line
  /-- `json.loads` raises `JSONDecodeError`: silently dropped. -/
  | malformed : Line
  /-- parses to a JSON value that is not an object: the shape checks raise
  (TypeError/AttributeError with text `msg`), escaping the inner handler. -/
  | nonObj (msg : String) : Line
  /-- parses to an object with an optional `message.content` string and a
  `done` truthiness. -/
  | obj (content : Option String) (done : Bool) : Line
deriving DecidableEq, Repr

/-- An event pushed to the client over the SSE channel. -/
inductive ClientEvent where
  | token (t : String) (conversation_id : String) : ClientEvent
  | done (conversation_id : String) : ClientEvent
  | error (msg : String) : ClientEvent
deriving DecidableEq, Repr

/-- The backend interaction outcome the environment supplies: the initial
connection is refused (`httpx.ConnectError`), or the stream yields a list
of lines and then either closes cleanly (`fault = none`) or raises a
transport fault (`fault = some msg`, caught by `except Exception`). -/
inductive Backend where
  | connectError : Backend
  | stream (lines : List Line) (fault : Option String) : Backend
deriving DecidableEq, Repr

/-- Whether a line is an object event with a truthy completion flag. -/
def Line.isDoneEvent : Line → Bool
  | .obj _ d => d
  | _ => false

/-- Whether a line parses to a non-object JSON value (stops the relay with
an error event). -/
def Line.isNonObj : Line → Bool
  | .nonObj _ => true
  | _ => false

/-- The content fragments carried by a list of lines, in arrival order. -/
def fragsOf : List Line → List String
  | [] => []
  | .obj (some t) _ :: rest => t :: fragsOf rest
  | .obj none _ :: rest => fragsOf rest
  | .blank :: rest => fragsOf rest
  | .malformed :: rest => fragsOf rest
  | .nonObj _ :: rest => fragsOf rest

/-- The `async for` loop of `stream_response` (app.py lines 426-445):
`acc` is `full_response`, `st` the store, `fault` a pending transport
fault raised after the lines are exhausted.  Each fragment is appended to
the accumulator and emitted immediately; a truthy `done` joins the
accumulator, inserts the assistant row and emits the done event — and the
loop then keeps reading (the code has no `break` after `done`).  A
non-object line raises out of the loop into `except Exception`, which
emits one error event and ends the generator. -/
def runRelay (conv ts : String) :
    List String → Store → Option String → List Line → List ClientEvent × Store
  | _, st, none, [] => ([], st)
  | _, st, some msg, [] => ([ClientEvent.error msg], st)
  | acc, st, fault, .blank :: rest => runRelay conv ts acc st fault rest
  | acc, st, fault, .malformed :: rest => runRelay conv ts acc st fault rest
  | _, st, _, .nonObj msg :: _ => ([ClientEvent.error msg], st)
  | acc, st, fault, .obj c false :: rest =>
      let r := runRelay conv ts (acc ++ c.toList) st fault rest
      (c.toList.map (fun t => ClientEvent.token t conv) ++ r.1, r.2)
  | acc, st, fault, .obj c true :: rest =>
      let acc' := acc ++ c.toList
      let st' := { st with messages :=
        st.messages ++ [⟨conv, "assistant", String.join acc', ts⟩] }
      let r := runRelay conv ts acc' st' fault rest
      (c.toList.map (fun t => ClientEvent.token t conv)
        ++ ClientEvent.done conv :: r.1, r.2)

/-- The `stream_response` generator (app.py lines 416-451) as a function of
the backend outcome: the events pushed to the client and the store after
the relay ends.  A refused connection yields exactly the fixed
backend-unreachable error event. -/
def stream_response (conv ts : String) (st : Store) : Backend → List ClientEvent × Store
  | .connectError => ([ClientEvent.error "Cannot connect to Ollama. Is it running?"], st)
  | .stream lines fault => runRelay conv ts [] st fault lines

/-- The whole `/api/chat` request: the synchronous handler part, then the
relay on the committed store. -/
def chat_pipeline (body : ChatBody) (st : Store) (freshId now ts : String)
    (backend : Backend) : Except Nat (List ClientEvent × Store) :=
  match chat body st freshId now with
  | Except.error e => Except.error e
  | Except.ok (st', conv_id, _) => Except.ok (stream_response conv_id ts st' backend)

/-- An empty store, used to instantiate theorems at concrete inputs. -/
def emptyStore : Store := ⟨[], [], none, []⟩

/-! ### Helper lemmas about the relay -/

theorem fragsOf_cons_obj (c : Option String) (d : Bool) (rest : List Line) :
    fragsOf (.obj c d :: rest) = c.toList ++ fragsOf rest := by
  cases c <;> rfl

theorem fragsOf_append (a b : List Line) :
    fragsOf (a ++ b) = fragsOf a ++ fragsOf b := by
  induction a with
  | nil => rfl
  | cons l tl ih =>
    cases l with
    | blank => simpa [fragsOf] using ih
    | malformed => simpa [fragsOf] using ih
    | nonObj m => simpa [fragsOf] using ih
    | obj c d => cases c <;> simp [fragsOf, ih]

theorem runRelay_clean_front (conv ts : String) :
    ∀ ls : List Line, (∀ l ∈ ls, l.isDoneEvent = false ∧ l.isNonObj = false) →
      ∀ (rest : List Line) (acc : List String) (st : Store) (fault : Option String),
        runRelay conv ts acc st fault (ls ++ rest) =
          ((fragsOf ls).map (fun t => ClientEvent.token t conv)
              ++ (runRelay conv ts (acc ++ fragsOf ls) st fault rest).1,
            (runRelay conv ts (acc ++ fragsOf ls) st fault rest).2) := by
  intro ls
  induction ls with
  | nil => intro _ rest acc st fault; simp [fragsOf]
  | cons l tl ih =>
    intro h rest acc st fault
    have hl := h l (List.mem_cons_self l tl)
    have htl : ∀ x ∈ tl, x.isDoneEvent = false ∧ x.isNonObj = false :=
      fun x hx => h x (List.mem_cons_of_mem l hx)
    cases l with
    | blank => simpa [runRelay, fragsOf] using ih htl rest acc st fault
    | malformed => simpa [runRelay, fragsOf] using ih htl rest acc st fault
    | nonObj m => simp [Line.isNonObj] at hl
    | obj c d =>
      cases d with
      | true => simp [Line.isDoneEvent] at hl
      | false =>
        cases c with
        | none => simpa [runRelay, fragsOf] using ih htl rest acc st fault
        | some t =>
          have := ih htl rest (acc ++ [t]) st fault
          simp [runRelay, fragsOf, this, List.append_assoc]

theorem runRelay_messages_extend (conv ts : String) :
    ∀ (lines : List Line) (acc : List String) (st : Store) (fault : Option String),
      ∃ suffix, (runRelay conv ts acc st fault lines).2.messages = st.messages ++ suffix
        ∧ ∀ m ∈ suffix, m.role = "assistant" := by
  intro lines
  induction lines with
  | nil =>
    intro acc st fault
    cases fault <;> exact ⟨[], by simp [runRelay], by simp⟩
  | cons l tl ih =>
    intro acc st fault
    cases l with
    | blank => simpa [runRelay] using ih acc st fault
    | malformed => simpa [runRelay] using ih acc st fault
    | nonObj m => exact ⟨[], by simp [runRelay], by simp⟩
    | obj c d =>
      cases d with
      | false => simpa [runRelay] using ih (acc ++ c.toList) st fault
      | true =>
        obtain ⟨suffix, h1, h2⟩ := ih (acc ++ c.toList)
          { st with messages :=
              st.messages ++ [⟨conv, "assistant", String.join (acc ++ c.toList), ts⟩] } fault
        refine ⟨⟨conv, "assistant", String.join (acc ++ c.toList), ts⟩ :: suffix, ?_, ?_⟩
        · simp only [runRelay] at h1 ⊢
          simp at h1 ⊢
          rw [h1]
        · intro m hm
          rcases List.mem_cons.mp hm with h | h
          · subst h; rfl
          · exact h2 m h

theorem runRelay_no_done_store (conv ts : String) :
    ∀ lines : List Line, (∀ l ∈ lines, l.isDoneEvent = false) →
      ∀ (acc : List String) (st : Store) (fault : Option String),
        (runRelay conv ts acc st fault lines).2 = st := by
  intro lines
  induction lines with
  | nil => intro _ acc st fault; cases fault <;> simp [runRelay]
  | cons l tl ih =>
    intro h acc st fault
    have hl := h l (List.mem_cons_self l tl)
    have htl : ∀ x ∈ tl, x.isDoneEvent = false :=
      fun x hx => h x (List.mem_cons_of_mem l hx)
    cases l with
    | blank => simpa [runRelay] using ih htl acc st fault
    | malformed => simpa [runRelay] using ih htl acc st fault
    | nonObj m => simp [runRelay]
    | obj c d =>
      cases d with
      | true => simp [Line.isDoneEvent] at hl
      | false => simpa [runRelay] using ih htl (acc ++ c.toList) st fault

/-! ### Helper lemmas about strings -/

theorem pyStrip_empty : pyStrip "" = "" := rfl

theorem preset_cond_iff (preset : String) :
    (preset ≠ "" ∧ pyStrip preset ≠ "") ↔ pyStrip preset ≠ "" := by
  constructor
  · exact fun h => h.2
  · intro h
    refine ⟨?_, h⟩
    intro he
    rw [he] at h
    exact h pyStrip_empty

theorem intercalate_go_nil (a s : String) :
    String.intercalate.go a s [] = a := rfl

theorem intercalate_go_cons (a s b : String) (rest : List String) :
    String.intercalate.go a s (b :: rest)
      = String.intercalate.go (a ++ s ++ b) s rest := rfl

/-! ### Claim theorems -/

/-- Claim C6: when the connection to the backend is refused, the client
receives exactly one structured error event (the fixed backend-unreachable
message, distinct from the generic `str(e)` path), the stream terminates
(no further events), and the store is unchanged (no assistant Turn
written). -/
theorem claim_C6_connect_refused (conv ts : String) (st : Store) :
    stream_response conv ts st Backend.connectError =
      ([ClientEvent.error "Cannot connect to Ollama. Is it running?"], st) := rfl

/-- Claim C7: a backend line that is blank, fails JSON parsing, or parses
to an object carrying neither a content fragment nor a completion flag is
dropped silently: processing the stream with that line at the front (in
any relay state: any accumulator, store, pending fault) is identical to
processing the remaining lines — nothing emitted, nothing persisted, no
abort. -/
theorem claim_C7_droppable_lines (conv ts : String) (acc : List String) (st : Store)
    (fault : Option String) (l : Line) (rest : List Line)
    (h : l = Line.malformed ∨ l = Line.blank ∨ l = Line.obj none false) :
    runRelay conv ts acc st fault (l :: rest) = runRelay conv ts acc st fault rest := by
  rcases h with h | h | h <;> subst h <;> simp [runRelay]

/-- Witness for C7 at a concrete malformed line. -/
theorem claim_C7_witness :
    runRelay "c" "t" [] emptyStore none [Line.malformed]
      = runRelay "c" "t" [] emptyStore none [] :=
  claim_C7_droppable_lines "c" "t" [] emptyStore none Line.malformed [] (Or.inl rfl)

/-- Claim C8: the system-prompt composer is a deterministic function of
(profile_enabled, profile_text, preset_text): the trimmed profile is the
first segment iff enabled and non-blank, the trimmed preset the second iff
non-blank, segments joined by the fixed separator, empty result when no
segment; and the two spec scenarios compose to exactly "Y" and
"Be concise." respectively. -/
theorem claim_C8_prompt_composer (enabled : Bool) (profile preset : String) :
    (build_system_prompt (some profile)
        [("profile_enabled", if enabled then "true" else "false")] preset
      = String.intercalate "\n\n---\n\n"
          ((if enabled = true ∧ pyStrip profile ≠ "" then [pyStrip profile] else [])
            ++ (if pyStrip preset ≠ "" then [pyStrip preset] else [])))
    ∧ build_system_prompt (some "X") [("profile_enabled", "false")] "Y" = "Y"
    ∧ build_system_prompt (some "") [("profile_enabled", "true")] "Be concise."
        = "Be concise." := by
  refine ⟨?_, by decide, by decide⟩
  by_cases hq : pyStrip preset = ""
  · by_cases hp : pyStrip profile = "" <;> cases enabled <;>
      simp [build_system_prompt, settings_get, hp, hq, String.intercalate, intercalate_go_nil]
  · have hq2 : preset ≠ "" := fun he => hq (by rw [he]; exact pyStrip_empty)
    by_cases hp : pyStrip profile = "" <;> cases enabled <;>
      simp [build_system_prompt, settings_get, hp, hq, hq2, String.intercalate,
        intercalate_go_nil, intercalate_go_cons]

/-- Claim C9: a chat submission whose message is empty or whitespace-only
is rejected synchronously with a 400 client error; the handler returns
before any store access, so no state is produced and no backend call is
made (the whole pipeline errors regardless of the backend). -/
theorem claim_C9_blank_message_rejected (body : ChatBody) (st : Store)
    (freshId now ts : String) (backend : Backend)
    (h : pyStrip (body.message.getD "") = "") :
    chat body st freshId now = Except.error 400
      ∧ chat_pipeline body st freshId now ts backend = Except.error 400 := by
  have h1 : chat body st freshId now = Except.error 400 := by
    simp [chat, h]
  exact ⟨h1, by simp [chat_pipeline, h1]⟩

/-- Witness for C9 at a concrete whitespace-only message. -/
theorem claim_C9_witness :
    chat ⟨none, some "   ", none, none⟩ emptyStore "cid" "now" = Except.error 400
      ∧ chat_pipeline ⟨none, some "   ", none, none⟩ emptyStore "cid" "now" "ts"
          Backend.connectError = Except.error 400 :=
  claim_C9_blank_message_rejected ⟨none, some "   ", none, none⟩ emptyStore
    "cid" "now" "ts" Backend.connectError (by decide)

theorem runRelay_first_done (conv ts : String) (st : Store) (ls rest : List Line)
    (c : Option String) (fault : Option String)
    (h : ∀ l ∈ ls, l.isDoneEvent = false ∧ l.isNonObj = false) :
    runRelay conv ts [] st fault (ls ++ Line.obj c true :: rest)
      = ((fragsOf ls ++ c.toList).map (fun t => ClientEvent.token t conv)
          ++ ClientEvent.done conv ::
            (runRelay conv ts (fragsOf ls ++ c.toList)
              { st with messages := st.messages
                  ++ [⟨conv, "assistant", String.join (fragsOf ls ++ c.toList), ts⟩] }
              fault rest).1,
         (runRelay conv ts (fragsOf ls ++ c.toList)
            { st with messages := st.messages
                ++ [⟨conv, "assistant", String.join (fragsOf ls ++ c.toList), ts⟩] }
            fault rest).2) := by
  rw [runRelay_clean_front conv ts ls h (Line.obj c true :: rest) [] st fault]
  simp [runRelay, List.map_append]

/-- Claim C1: for every completed turn (the backend stream contains an
event with the completion flag), the assistant Turn text persisted at
completion is the exact concatenation, in arrival order, of the content
fragments emitted to the client as token events during the turn: the
relay's output up to the done signal is exactly one token event per
fragment (including a fragment on the completing event itself), and the
persisted content is their `String.join`. -/
theorem claim_C1_persisted_equals_emitted (conv ts : String) (st : Store)
    (ls rest : List Line) (c : Option String) (fault : Option String)
    (h : ∀ l ∈ ls, l.isDoneEvent = false ∧ l.isNonObj = false) :
    ∃ evtsAfter msgsAfter,
      (stream_response conv ts st (Backend.stream (ls ++ Line.obj c true :: rest) fault)).1
        = (fragsOf ls ++ c.toList).map (fun t => ClientEvent.token t conv)
            ++ ClientEvent.done conv :: evtsAfter
      ∧ (stream_response conv ts st
            (Backend.stream (ls ++ Line.obj c true :: rest) fault)).2.messages
        = st.messages
            ++ ⟨conv, "assistant", String.join (fragsOf ls ++ c.toList), ts⟩ :: msgsAfter := by
  obtain ⟨suffix, hs1, -⟩ := runRelay_messages_extend conv ts rest (fragsOf ls ++ c.toList)
    { st with messages := st.messages
        ++ [⟨conv, "assistant", String.join (fragsOf ls ++ c.toList), ts⟩] } fault
  refine ⟨(runRelay conv ts (fragsOf ls ++ c.toList)
      { st with messages := st.messages
          ++ [⟨conv, "assistant", String.join (fragsOf ls ++ c.toList), ts⟩] }
      fault rest).1, suffix, ?_, ?_⟩
  · show (runRelay conv ts [] st fault (ls ++ Line.obj c true :: rest)).1 = _
    rw [runRelay_first_done conv ts st ls rest c fault h]
  · show (runRelay conv ts [] st fault (ls ++ Line.obj c true :: rest)).2.messages = _
    rw [runRelay_first_done conv ts st ls rest c fault h]
    show (runRelay conv ts (fragsOf ls ++ c.toList)
        { st with messages := st.messages
            ++ [⟨conv, "assistant", String.join (fragsOf ls ++ c.toList), ts⟩] }
        fault rest).2.messages = _
    rw [hs1]
    simp

/-- Witness for C1 at the spec scenario: fragments "Hel", "lo", then the
completion event; persisted content "Hello". -/
theorem claim_C1_witness :
    ∃ evtsAfter msgsAfter,
      (stream_response "c" "t" emptyStore
          (Backend.stream ([Line.obj (some "Hel") false, Line.obj (some "lo") false]
            ++ Line.obj none true :: []) none)).1
        = (fragsOf [Line.obj (some "Hel") false, Line.obj (some "lo") false]
            ++ Option.toList none).map (fun t => ClientEvent.token t "c")
            ++ ClientEvent.done "c" :: evtsAfter
      ∧ (stream_response "c" "t" emptyStore
            (Backend.stream ([Line.obj (some "Hel") false, Line.obj (some "lo") false]
              ++ Line.obj none true :: []) none)).2.messages
        = emptyStore.messages
            ++ ⟨"c", "assistant",
                String.join (fragsOf [Line.obj (some "Hel") false, Line.obj (some "lo") false]
                  ++ Option.toList none), "t"⟩ :: msgsAfter :=
  claim_C1_persisted_equals_emitted "c" "t" emptyStore
    [Line.obj (some "Hel") false, Line.obj (some "lo") false] [] none none (by decide)

/-- Claim C2: in every reachable relay state, no assistant Turn has been
persisted before an event with the completion flag is observed: a stream
whose processed lines contain no completion event (early close, transport
fault, client abort — all runs on such a line list) leaves the store
unchanged, as does a refused connection. -/
theorem claim_C2_no_turn_before_done (conv ts : String) (st : Store)
    (lines : List Line) (fault : Option String)
    (h : ∀ l ∈ lines, l.isDoneEvent = false) :
    (stream_response conv ts st (Backend.stream lines fault)).2 = st
      ∧ (stream_response conv ts st Backend.connectError).2 = st := by
  constructor
  · show (runRelay conv ts [] st fault lines).2 = st
    exact runRelay_no_done_store conv ts lines h [] st fault
  · rfl

/-- Witness for C2: a stream with one fragment and one malformed line that
ends in a transport fault, never signalling completion, persists nothing. -/
theorem claim_C2_witness :
    (stream_response "c" "t" emptyStore
        (Backend.stream [Line.obj (some "Hel") false, Line.malformed] (some "boom"))).2
      = emptyStore
      ∧ (stream_response "c" "t" emptyStore Backend.connectError).2 = emptyStore :=
  claim_C2_no_turn_before_done "c" "t" emptyStore
    [Line.obj (some "Hel") false, Line.malformed] (some "boom") (by decide)

/-- Counterexample to C5 as stated: the loop body of `stream_response` has
no `break` after handling the completion flag, so the relay keeps reading.
With the concrete backend stream `[{done:true}, {message:{content:"x"}}]`
the client receives a token event AFTER the done event: the output is
`[done, token "x"]`, not `[done]`. -/
theorem claim_C5_counterexample :
    (stream_response "c" "t" emptyStore
        (Backend.stream [Line.obj none true, Line.obj (some "x") false] none)).1
      = [ClientEvent.done "c", ClientEvent.token "x" "c"] := rfl

/-- Claim C5 (amended): processing the first completion event persists the
assistant Turn and emits the done signal, but the relay does not stop
reading by itself; it ends because the backend closes the stream after
signalling completion.  When the completion event is the last line of the
stream (the protocol's normal shape), the relay's full output is the token
events followed by a single final done event — nothing after it — and
exactly one assistant Turn is persisted. -/
theorem claim_C5_done_last_line_ends_relay (conv ts : String) (st : Store)
    (ls : List Line) (c : Option String)
    (h : ∀ l ∈ ls, l.isDoneEvent = false ∧ l.isNonObj = false) :
    stream_response conv ts st (Backend.stream (ls ++ [Line.obj c true]) none)
      = ((fragsOf ls ++ c.toList).map (fun t => ClientEvent.token t conv)
           ++ [ClientEvent.done conv],
         { st with messages := st.messages
             ++ [⟨conv, "assistant", String.join (fragsOf ls ++ c.toList), ts⟩] }) := by
  show runRelay conv ts [] st none (ls ++ Line.obj c true :: []) = _
  rw [runRelay_first_done conv ts st ls [] c none h]
  simp [runRelay]

/-- Witness for C5 (amended) at the spec scenario stream. -/
theorem claim_C5_witness :
    stream_response "c" "t" emptyStore
        (Backend.stream ([Line.obj (some "Hel") false, Line.obj (some "lo") false]
          ++ [Line.obj none true]) none)
      = ((fragsOf [Line.obj (some "Hel") false, Line.obj (some "lo") false]
            ++ Option.toList none).map (fun t => ClientEvent.token t "c")
           ++ [ClientEvent.done "c"],
         { emptyStore with messages := emptyStore.messages
             ++ [⟨"c", "assistant",
                  String.join (fragsOf [Line.obj (some "Hel") false, Line.obj (some "lo") false]
                    ++ Option.toList none), "t"⟩] }) :=
  claim_C5_done_last_line_ends_relay "c" "t" emptyStore
    [Line.obj (some "Hel") false, Line.obj (some "lo") false] none (by decide)

/-- Claim C10: a backend event carrying both a content fragment and the
completion flag first emits that fragment as a token event (immediately
before the done event) and includes it as the final fragment of the
persisted assistant text — the trailing fragment is lost neither from the
client stream nor from the transcript. -/
theorem claim_C10_trailing_fragment_kept (conv ts : String) (st : Store)
    (ls rest : List Line) (t : String) (fault : Option String)
    (h : ∀ l ∈ ls, l.isDoneEvent = false ∧ l.isNonObj = false) :
    ∃ evtsAfter msgsAfter,
      (stream_response conv ts st
          (Backend.stream (ls ++ Line.obj (some t) true :: rest) fault)).1
        = (fragsOf ls).map (fun x => ClientEvent.token x conv)
            ++ ClientEvent.token t conv :: ClientEvent.done conv :: evtsAfter
      ∧ (stream_response conv ts st
            (Backend.stream (ls ++ Line.obj (some t) true :: rest) fault)).2.messages
        = st.messages
            ++ ⟨conv, "assistant", String.join (fragsOf ls ++ [t]), ts⟩ :: msgsAfter := by
  obtain ⟨suffix, hs1, -⟩ := runRelay_messages_extend conv ts rest (fragsOf ls ++ [t])
    { st with messages := st.messages
        ++ [⟨conv, "assistant", String.join (fragsOf ls ++ [t]), ts⟩] } fault
  refine ⟨(runRelay conv ts (fragsOf ls ++ [t])
      { st with messages := st.messages
          ++ [⟨conv, "assistant", String.join (fragsOf ls ++ [t]), ts⟩] }
      fault rest).1, suffix, ?_, ?_⟩
  · show (runRelay conv ts [] st fault (ls ++ Line.obj (some t) true :: rest)).1 = _
    rw [runRelay_first_done conv ts st ls rest (some t) fault h]
    simp
  · show (runRelay conv ts [] st fault (ls ++ Line.obj (some t) true :: rest)).2.messages = _
    rw [runRelay_first_done conv ts st ls rest (some t) fault h]
    show (runRelay conv ts (fragsOf ls ++ [t])
        { st with messages := st.messages
            ++ [⟨conv, "assistant", String.join (fragsOf ls ++ [t]), ts⟩] }
        fault rest).2.messages = _
    rw [hs1]
    simp

/-- Witness for C10: a fragment bundled with the completion flag. -/
theorem claim_C10_witness :
    ∃ evtsAfter msgsAfter,
      (stream_response "c" "t" emptyStore
          (Backend.stream ([Line.obj (some "Hel") false]
            ++ Line.obj (some "lo!") true :: []) none)).1
        = (fragsOf [Line.obj (some "Hel") false]).map (fun x => ClientEvent.token x "c")
            ++ ClientEvent.token "lo!" "c" :: ClientEvent.done "c" :: evtsAfter
      ∧ (stream_response "c" "t" emptyStore
            (Backend.stream ([Line.obj (some "Hel") false]
              ++ Line.obj (some "lo!") true :: []) none)).2.messages
        = emptyStore.messages
            ++ ⟨"c", "assistant",
                String.join (fragsOf [Line.obj (some "Hel") false] ++ ["lo!"]), "t"⟩
              :: msgsAfter :=
  claim_C10_trailing_fragment_kept "c" "t" emptyStore
    [Line.obj (some "Hel") false] [] "lo!" none (by decide)

/-- Claim C3: for every chat submission with a non-blank message, the
handler succeeds and appends exactly one user Turn, carrying the trimmed
message, to the store it hands to the relay (the write is committed before
the streaming request is attempted: the relay's input store already
contains it); and regardless of the backend outcome (success, failure,
abort — any `Backend` value, any processed prefix), the final store still
contains that single user Turn, followed only by assistant Turns.  Here
`res.1` is the committed store and `res.2.1` the resolved conversation
id. -/
theorem claim_C3_user_turn_persisted_first (body : ChatBody) (st : Store)
    (freshId now ts : String)
    (h : pyStrip (body.message.getD "") ≠ "") :
    ∃ res, chat body st freshId now = Except.ok res
      ∧ res.1.messages
          = st.messages ++ [⟨res.2.1, "user", pyStrip (body.message.getD ""), now⟩]
      ∧ ∀ backend : Backend, ∃ suffix,
          (stream_response res.2.1 ts res.1 backend).2.messages
            = st.messages
                ++ ⟨res.2.1, "user", pyStrip (body.message.getD ""), now⟩ :: suffix
            ∧ ∀ m ∈ suffix, m.role = "assistant" := by
  have hrelay : ∀ (conv_id : String) (st2 : Store),
      st2.messages = st.messages ++ [⟨conv_id, "user", pyStrip (body.message.getD ""), now⟩] →
      ∀ backend : Backend, ∃ suffix,
        (stream_response conv_id ts st2 backend).2.messages
          = st.messages ++ ⟨conv_id, "user", pyStrip (body.message.getD ""), now⟩ :: suffix
          ∧ ∀ m ∈ suffix, m.role = "assistant" := by
    intro conv_id st2 hmsg backend
    cases backend with
    | connectError => exact ⟨[], by simpa [stream_response] using hmsg, by simp⟩
    | stream lines fault =>
      obtain ⟨suffix, h1, h2⟩ := runRelay_messages_extend conv_id ts lines [] st2 fault
      refine ⟨suffix, ?_, h2⟩
      show (runRelay conv_id ts [] st2 fault lines).2.messages = _
      rw [h1, hmsg]
      simp
  cases hres : chat body st freshId now with
  | error e =>
    exact absurd hres (by by_cases hc : body.conversation_id.getD "" = "" <;>
      simp [chat, h, hc])
  | ok res =>
    by_cases hc : body.conversation_id.getD "" = "" <;> simp [chat, h, hc] at hres <;>
      subst hres
    · exact ⟨_, rfl, by simp, hrelay _ _ (by simp)⟩
    · exact ⟨_, rfl, by simp, hrelay _ _ (by simp)⟩

/-- Witness for C3 on a fresh conversation with a padded message. -/
theorem claim_C3_witness :
    ∃ res, chat ⟨none, some " hi ", none, none⟩ emptyStore "id1" "now0" = Except.ok res
      ∧ res.1.messages
          = emptyStore.messages
              ++ [⟨res.2.1, "user", pyStrip ((⟨none, some " hi ", none, none⟩ : ChatBody).message.getD ""), "now0"⟩]
      ∧ ∀ backend : Backend, ∃ suffix,
          (stream_response res.2.1 "ts0" res.1 backend).2.messages
            = emptyStore.messages
                ++ ⟨res.2.1, "user", pyStrip ((⟨none, some " hi ", none, none⟩ : ChatBody).message.getD ""), "now0"⟩ :: suffix
            ∧ ∀ m ∈ suffix, m.role = "assistant" :=
  claim_C3_user_turn_persisted_first ⟨none, some " hi ", none, none⟩ emptyStore
    "id1" "now0" "ts0" (by decide)

/-- Claim C4: a chat submission against an existing conversation holding N
prior turns sends the backend exactly: the optional system message
(present iff the composed prompt is non-empty), then all N persisted turns
plus the just-appended user turn, as role/content pairs in insertion
order, with total length (0 or 1) + N + 1.  Here `res.2.1` is the resolved
conversation id and `res.2.2` the Ollama payload. -/
theorem claim_C4_context_assembly (body : ChatBody) (st : Store)
    (freshId now : String) (cid : String)
    (h : pyStrip (body.message.getD "") ≠ "")
    (hc : body.conversation_id = some cid) (hne : cid ≠ "") :
    ∃ res, chat body st freshId now = Except.ok res
      ∧ res.2.1 = cid
      ∧ res.2.2.messages
        = (if build_system_prompt st.profile st.settings (body.system_prompt.getD "") = ""
            then []
            else [⟨"system",
              build_system_prompt st.profile st.settings (body.system_prompt.getD "")⟩])
          ++ ((st.messages.filter (fun m => m.conversation_id = cid)).map
                (fun m => Msg.mk m.role m.content)
              ++ [Msg.mk "user" (pyStrip (body.message.getD ""))])
      ∧ res.2.2.messages.length
        = (if build_system_prompt st.profile st.settings (body.system_prompt.getD "") = ""
            then 0 else 1)
          + (st.messages.filter (fun m => m.conversation_id = cid)).length + 1 := by
  cases hres : chat body st freshId now with
  | error e => exact absurd hres (by simp [chat, h, hc, hne])
  | ok res =>
    simp [chat, h, hc, hne] at hres
    subst hres
    refine ⟨_, rfl, by simp, ?_, ?_⟩
    · simp [List.filter_append]
    · by_cases hsp : build_system_prompt st.profile st.settings (body.system_prompt.getD "") = ""
      · simp [List.filter_append, hsp]
      · simp [List.filter_append, hsp]
        omega

/-- Witness for C4 against a conversation with one prior turn. -/
theorem claim_C4_witness :
    ∃ res, chat ⟨some "k", some "hello", none, none⟩
        ⟨[⟨"k", "T", "m", "0", "0"⟩], [⟨"k", "user", "q", "0"⟩], none, []⟩ "id1" "now0"
      = Except.ok res
      ∧ res.2.1 = "k"
      ∧ res.2.2.messages
        = (if build_system_prompt (none : Option String) ([] : List (String × String))
              ((⟨some "k", some "hello", none, none⟩ : ChatBody).system_prompt.getD "") = ""
            then []
            else [⟨"system",
              build_system_prompt (none : Option String) ([] : List (String × String))
                ((⟨some "k", some "hello", none, none⟩ : ChatBody).system_prompt.getD "")⟩])
          ++ ((([⟨"k", "user", "q", "0"⟩] : List StoredMsg).filter
                (fun m => m.conversation_id = "k")).map (fun m => Msg.mk m.role m.content)
              ++ [Msg.mk "user" (pyStrip ((⟨some "k", some "hello", none, none⟩ : ChatBody).message.getD ""))])
      ∧ res.2.2.messages.length
        = (if build_system_prompt (none : Option String) ([] : List (String × String))
              ((⟨some "k", some "hello", none, none⟩ : ChatBody).system_prompt.getD "") = ""
            then 0 else 1)
          + (([⟨"k", "user", "q", "0"⟩] : List StoredMsg).filter
              (fun m => m.conversation_id = "k")).length + 1 :=
  claim_C4_context_assembly ⟨some "k", some "hello", none, none⟩
    ⟨[⟨"k", "T", "m", "0", "0"⟩], [⟨"k", "user", "q", "0"⟩], none, []⟩ "id1" "now0" "k"
    (by decide) rfl (by decide)
